import Mathlib

/-!
Verification of the Competition Session Engine of the typing-competition
repository, against its natural-language specification.

The embedding below is a shallow model of `socket/handlers/competitionHandlers.js`
(`handleStartCompetition` / `handleEndCompetition`): the handlers are translated
into pure functions on an explicit session state, with the server clock, the
success of the durable write, and the pending `setTimeout` auto-end callback
made explicit parameters/fields.  Machine numbers are modelled as `Int`/`Nat`
(no overflow is reachable in this logic) and `Rat` for the scoring formulas.
-/

namespace TypingComp

/-- Competition mode (`competition.mode` in the source: `timed`, `word-count`,
or `rounds`). -/
inductive Mode where
  | timed
  | wordCount
  | rounds
deriving DecidableEq

/-- Lifecycle status of the competition document
(`status: pending | ongoing | completed` in the Mongoose schema). -/
inductive Status where
  | pending
  | ongoing
  | completed
deriving DecidableEq

/-- The per-participant live counters object (`p.competitionData` in the
source).  The reset object literal in `handleStartCompetition` carries no
`typingTime` key; reading an absent key through `data.typingTime || 0`
yields 0, which is modelled by `typingTime := 0` in `resetData`. -/
structure CompetitionData where
  correctChars : Nat
  totalChars : Nat
  wpm : Int
  accuracy : Int
  errors : Nat
  backspaces : Nat
  testStartTime : Nat
  wordsTyped : Nat
  completed : Bool
  typingTime : Nat
deriving DecidableEq

/-- The counters object assigned to every participant by
`handleStartCompetition` (lines 51-63 of the source): all counters zero,
`completed` false, `testStartTime` the server-observed clock value.  The
handler's payload is `{ competitionId }` only, so no client-supplied time can
reach this record. -/
def resetData (now : Nat) : CompetitionData :=
  { correctChars := 0, totalChars := 0, wpm := 0, accuracy := 0, errors := 0,
    backspaces := 0, testStartTime := now, wordsTyped := 0, completed := false,
    typingTime := 0 }

/-- One entry of `compData.participants` (the session's participant map,
taken in insertion order).  `competitionData` is `none` for a participant
for whom the counters object was never created. -/
structure Participant where
  name : String
  socketId : String
  competitionData : Option CompetitionData
deriving DecidableEq

/-- A finalized result record, as built by `handleEndCompetition`
(lines 99-116): a snapshot of one participant's counters with every absent
field defaulted through `|| 0` / `|| false`, plus the rank assigned below. -/
structure ResultRecord where
  participantName : String
  participantId : String
  wpm : Int
  accuracy : Int
  correctChars : Nat
  totalChars : Nat
  incorrectChars : Nat
  errors : Nat
  backspaces : Nat
  rank : Nat
  typingTime : Nat
  wordsTyped : Nat
  completed : Bool
deriving DecidableEq

/-- The snapshot `participantsArray.map((p) => {...})` of the source: with a
counters object present its fields are copied (`data.errors` also feeds
`incorrectChars`); with `competitionData` absent (`data = {}`), every
`data.x || 0` is 0 and `data.completed || false` is false.  `rank := 0`
mirrors the placeholder `rank: 0` before ranks are assigned. -/
def snapshot (p : Participant) : ResultRecord :=
  match p.competitionData with
  | some d =>
    { participantName := p.name, participantId := p.socketId, wpm := d.wpm,
      accuracy := d.accuracy, correctChars := d.correctChars,
      totalChars := d.totalChars, incorrectChars := d.errors, errors := d.errors,
      backspaces := d.backspaces, rank := 0, typingTime := d.typingTime,
      wordsTyped := d.wordsTyped, completed := d.completed }
  | none =>
    { participantName := p.name, participantId := p.socketId, wpm := 0,
      accuracy := 0, correctChars := 0, totalChars := 0, incorrectChars := 0,
      errors := 0, backspaces := 0, rank := 0, typingTime := 0, wordsTyped := 0,
      completed := false }

/-- The sort order of `finalResults.sort((a, b) => b.wpm - a.wpm)`:
`a` may precede `b` exactly when `a.wpm ≥ b.wpm`. -/
def wpmGe (a b : ResultRecord) : Prop := b.wpm ≤ a.wpm

instance : DecidableRel wpmGe := fun a b => Int.decLe b.wpm a.wpm

instance : IsTotal ResultRecord wpmGe :=
  ⟨fun a b => Int.le_total b.wpm a.wpm⟩

instance : IsTrans ResultRecord wpmGe :=
  ⟨fun _ _ _ h1 h2 => Int.le_trans h2 h1⟩

/-- `finalResults.sort((a, b) => b.wpm - a.wpm)` of the source.  JavaScript's
`Array.prototype.sort` is a stable sort (ES2019), and the output of a stable
sort under a fixed total preorder is unique, so the stable insertion sort is
an exact model of it. -/
def sortByWpmDesc (l : List ResultRecord) : List ResultRecord :=
  l.insertionSort wpmGe

/-- The rank-assignment loop `finalResults.forEach((result, index) => {
result.rank = index + 1 })` of the source, with `i` the index of the first
element. -/
def assignRanks : Nat → List ResultRecord → List ResultRecord
  | _, [] => []
  | i, r :: rs => { r with rank := i + 1 } :: assignRanks (i + 1) rs

/-- Lines 99-124 of the source composed: snapshot every participant, sort by
wpm descending, assign ranks 1..N. -/
def finalResults (parts : List Participant) : List ResultRecord :=
  assignRanks 0 (sortByWpmDesc (parts.map snapshot))

/-- One entry of `competition.finalRankings` (lines 129-137). -/
structure FinalRanking where
  rank : Nat
  participantName : String
  averageWpm : Int
  averageAccuracy : Int
  totalRoundsCompleted : Nat
  highestWpm : Int
  lowestWpm : Int
deriving DecidableEq

/-- `finalResults.map(result => ({...}))` of lines 129-137. -/
def toFinalRanking (r : ResultRecord) : FinalRanking :=
  { rank := r.rank, participantName := r.participantName, averageWpm := r.wpm,
    averageAccuracy := r.accuracy, totalRoundsCompleted := 1,
    highestWpm := r.wpm, lowestWpm := r.wpm }

/-- The in-memory Mongoose competition document, restricted to the fields the
handlers touch. -/
structure Competition where
  status : Status
  mode : Mode
  timeLimit : Nat
  startedAt : Option Nat
  completedAt : Option Nat
  finalRankings : List FinalRanking
deriving DecidableEq

/-- The `activeCompetitions.get(competitionId)` record: the
`competitionInProgress` guard flag and the participant map. -/
structure CompData where
  competitionInProgress : Bool
  participants : List Participant
deriving DecidableEq

/-- Outbound socket emissions of the two handlers.  The `error` payload
message is elided; `leaderboardUpdate` stands for the
`updateAndBroadcastLeaderboard` call at the end of `handleEndCompetition`. -/
inductive Emission where
  | error
  | competitionStarted (startTime : Nat)
  | competitionEnded (results : List ResultRecord)
  | leaderboardUpdate
deriving DecidableEq

/-- The observable state of one session: the in-memory competition document,
the `activeCompetitions` entry (`none` when the id is not in the map), whether
a `setTimeout` auto-end callback is pending in the event loop (`timerArmed`),
and the sets of result records durably written so far (`persisted`). -/
structure SessionState where
  competition : Competition
  compData : Option CompData
  timerArmed : Bool
  persisted : List (List ResultRecord)
deriving DecidableEq

/-- `handleStartCompetition` (lines 5-88 of the source) as a state
transformer.  `now` is the server clock (the payload is `{ competitionId }`
only — no client time exists); `dbOk` tells whether the awaited
`Competition.findByIdAndUpdate` succeeds.  Branches, in source order: missing
`compData` returns silently (line 16); `competitionInProgress` already set
returns silently after a console warning (lines 19-22); otherwise the flag is
set, the document is marked `ongoing` with `startedAt := now`, every
participant's counters are replaced by `resetData now`, and then either the
DB write throws (caught: an `error` emission, the mutations are not rolled
back and no timer is armed) or `competitionStarted` is broadcast and, for
`timed` mode, the auto-end `setTimeout` is armed (lines 77-82). -/
def handleStartCompetition (now : Nat) (dbOk : Bool) (s : SessionState) :
    SessionState × List Emission :=
  match s.compData with
  | none => (s, [])
  | some cd =>
    if cd.competitionInProgress then (s, [])
    else
      let cd1 : CompData :=
        { competitionInProgress := true,
          participants := cd.participants.map
            (fun p => { p with competitionData := some (resetData now) }) }
      let comp1 : Competition :=
        { s.competition with status := Status.ongoing, startedAt := some now }
      if dbOk then
        ({ s with competition := comp1, compData := some cd1,
                  timerArmed :=
                    if s.competition.mode = Mode.timed then true
                    else s.timerArmed },
         [Emission.competitionStarted now])
      else
        ({ s with competition := comp1, compData := some cd1 },
         [Emission.error])

/-- `handleEndCompetition` (lines 90-180 of the source) as a state
transformer.  `now` is the server clock, `saveOk` tells whether the awaited
`competition.save()` succeeds.  Branches, in source order: missing `compData`
or a cleared `competitionInProgress` flag returns immediately (line 92);
otherwise the flag is cleared, the final results are computed, the in-memory
document is marked `completed` with `completedAt` and `finalRankings` set
(all before the save), and then either the save throws (caught: only logged,
so no broadcast and no durable write happen, while the in-memory mutations
remain) or the results are persisted, `competitionEnded` is broadcast and the
leaderboard update runs.  Note that no `clearTimeout` exists anywhere in the
handler: `timerArmed` is left untouched. -/
def handleEndCompetition (now : Nat) (saveOk : Bool) (s : SessionState) :
    SessionState × List Emission :=
  match s.compData with
  | none => (s, [])
  | some cd =>
    if cd.competitionInProgress then
      let results := finalResults cd.participants
      let comp1 : Competition :=
        { s.competition with status := Status.completed,
                             completedAt := some now,
                             finalRankings := results.map toFinalRanking }
      let cd1 : Option CompData := some { cd with competitionInProgress := false }
      if saveOk then
        ({ s with competition := comp1, compData := cd1,
                  persisted := s.persisted ++ [results] },
         [Emission.competitionEnded results, Emission.leaderboardUpdate])
      else
        ({ s with competition := comp1, compData := cd1 }, [])
    else (s, [])

/-- The event-loop delivery of the `setTimeout` callback armed by
`handleStartCompetition`: if a timeout is pending it is consumed and
`handleEndCompetition` runs; otherwise nothing happens. -/
def timerFire (now : Nat) (saveOk : Bool) (s : SessionState) :
    SessionState × List Emission :=
  if s.timerArmed then
    handleEndCompetition now saveOk { s with timerArmed := false }
  else (s, [])

/-- Modelled from the spec: the Scoring Calculator lives in `server.js`,
which is not among the provided sources; only the README formula block and
§4.3 of the spec describe it.  `wpm = (correctChars / 5) / (elapsedSeconds /
60)` over exact rationals (rounding happens only at presentation time). -/
def calcWpm (correctChars elapsedSeconds : Rat) : Rat :=
  correctChars / 5 / (elapsedSeconds / 60)

/-- Modelled from the spec: the Scoring Calculator's accuracy formula,
`accuracy = totalChars > 0 ? (correctChars / totalChars) * 100 : 0`. -/
def calcAccuracy (correctChars totalChars : Rat) : Rat :=
  if 0 < totalChars then correctChars / totalChars * 100 else 0

/-- The Leaderboard Broadcaster's observable state:
`compData.lastLeaderboardUpdate` plus the log of emission instants
(newest first), which stands for the `leaderboardUpdate` messages sent. -/
structure ThrottleState where
  lastLeaderboardUpdate : Option Nat
  emissions : List Nat
deriving DecidableEq

/-- Broadcaster state of a fresh session: no broadcast has happened yet. -/
def throttleInit : ThrottleState :=
  { lastLeaderboardUpdate := none, emissions := [] }

/-- Modelled from the spec: the progress-event throttle gate of `server.js`
is not among the provided sources; it is reproduced verbatim in the README
("Adjust leaderboard update frequency"):
`if (!compData.lastLeaderboardUpdate || Date.now() -
compData.lastLeaderboardUpdate > 1000) { updateAndBroadcastLeaderboard(...) }`.
A qualifying call emits and records `lastLeaderboardUpdate := now`; any other
call leaves the state untouched (drop, not queue).  `Nat` subtraction
truncates at 0 exactly as the JavaScript comparison `negative > 1000` is
false. -/
def notifyDirty (now : Nat) (s : ThrottleState) : ThrottleState :=
  match s.lastLeaderboardUpdate with
  | none =>
    { lastLeaderboardUpdate := some now, emissions := now :: s.emissions }
  | some last =>
    if 1000 < now - last then
      { lastLeaderboardUpdate := some now, emissions := now :: s.emissions }
    else s

/-- A whole session's worth of progress notifications, delivered in order to
the Broadcaster of a fresh session. -/
def runNotifications (ts : List Nat) : ThrottleState :=
  ts.foldl (fun s t => notifyDirty t s) throttleInit

/-- The sublist of records whose wpm equals `w`, used to state stability of
the sort: a stable sort leaves every such sublist unchanged. -/
def keyFilter (w : Int) (l : List ResultRecord) : List ResultRecord :=
  l.filter (fun r => r.wpm == w)

/-- Forget the rank of a record (the only field the rank-assignment loop
writes). -/
def eraseRank (r : ResultRecord) : ResultRecord := { r with rank := 0 }

/-- Invariant of the Broadcaster state: the stored timestamp is the newest
emission instant, and consecutive emission instants are more than 1000 ms
apart. -/
def throttleInv (s : ThrottleState) : Prop :=
  s.lastLeaderboardUpdate = s.emissions.head? ∧
  s.emissions.Pairwise (fun a b => b + 1000 < a)

/-! ## Concrete states used by witnesses and counterexamples -/

/-- A participant with no counters object. -/
def pAlice : Participant :=
  { name := "alice", socketId := "s1", competitionData := none }

/-- A participant with live counters from a finished test. -/
def pBob : Participant :=
  { name := "bob", socketId := "s2",
    competitionData := some
      { correctChars := 400, totalChars := 410, wpm := 80, accuracy := 97,
        errors := 10, backspaces := 2, testStartTime := 0, wordsTyped := 80,
        completed := true, typingTime := 60 } }

/-- A timed-mode session that has not started: `pending`, guard flag clear,
no timer armed. -/
def demoPending : SessionState :=
  { competition :=
      { status := Status.pending, mode := Mode.timed, timeLimit := 60,
        startedAt := none, completedAt := none, finalRankings := [] },
    compData := some { competitionInProgress := false,
                       participants := [pAlice, pBob] },
    timerArmed := false,
    persisted := [] }

/-- A timed-mode session mid-round: `ongoing`, guard flag set, auto-end timer
armed. -/
def demoRunning : SessionState :=
  { competition :=
      { status := Status.ongoing, mode := Mode.timed, timeLimit := 60,
        startedAt := some 0, completedAt := none, finalRankings := [] },
    compData := some { competitionInProgress := true,
                       participants := [pAlice, pBob] },
    timerArmed := true,
    persisted := [] }

/-- A session whose round was manually ended while its auto-end timer is
still pending in the event loop: guard flag clear, timer armed. -/
def demoStopped : SessionState :=
  { competition :=
      { status := Status.completed, mode := Mode.timed, timeLimit := 60,
        startedAt := some 0, completedAt := some 60, finalRankings := [] },
    compData := some { competitionInProgress := false,
                       participants := [pAlice, pBob] },
    timerArmed := true,
    persisted := [[]] }

/-- A finished session still present in `activeCompetitions`: status
`completed`, guard flag clear. -/
def demoCompleted : SessionState :=
  { competition :=
      { status := Status.completed, mode := Mode.timed, timeLimit := 60,
        startedAt := some 0, completedAt := some 60, finalRankings := [] },
    compData := some { competitionInProgress := false,
                       participants := [pAlice, pBob] },
    timerArmed := false,
    persisted := [] }

/-! ## Helper lemmas about the ranking pipeline -/

theorem sortByWpmDesc_perm (l : List ResultRecord) : (sortByWpmDesc l).Perm l :=
  List.perm_insertionSort wpmGe l

theorem sortByWpmDesc_sorted (l : List ResultRecord) :
    (sortByWpmDesc l).Pairwise wpmGe :=
  List.sorted_insertionSort wpmGe l

theorem mem_keyFilter_wpm {w : Int} {l : List ResultRecord} {r : ResultRecord}
    (h : r ∈ keyFilter w l) : r.wpm = w := by
  have := List.of_mem_filter h
  simpa using this

theorem sortByWpmDesc_stable (l : List ResultRecord) (w : Int) :
    keyFilter w (sortByWpmDesc l) = keyFilter w l := by
  have hperm : (sortByWpmDesc l).Perm l := sortByWpmDesc_perm l
  have hpair : (keyFilter w l).Pairwise wpmGe := by
    apply List.pairwise_of_forall_mem_list
    intro a ha b hb
    unfold wpmGe
    rw [mem_keyFilter_wpm ha, mem_keyFilter_wpm hb]
  have hsub : List.Sublist (keyFilter w l) (sortByWpmDesc l) :=
    List.sublist_insertionSort hpair (List.filter_sublist l)
  have hself : (keyFilter w l).filter (fun r => r.wpm == w) = keyFilter w l :=
    List.filter_eq_self.mpr (fun a ha => by
      simpa using mem_keyFilter_wpm ha)
  have hsub2 : List.Sublist (keyFilter w l) (keyFilter w (sortByWpmDesc l)) := by
    have := hsub.filter (fun r => r.wpm == w)
    rwa [hself] at this
  have hlen : (keyFilter w l).length = (keyFilter w (sortByWpmDesc l)).length :=
    (hperm.symm.filter _).length_eq
  exact (hsub2.eq_of_length hlen).symm

theorem assignRanks_length (l : List ResultRecord) (i : Nat) :
    (assignRanks i l).length = l.length := by
  induction l generalizing i with
  | nil => rfl
  | cons r rs ih => simp [assignRanks, ih]

theorem assignRanks_map_rank (l : List ResultRecord) (i : Nat) :
    (assignRanks i l).map ResultRecord.rank = List.range' (i + 1) l.length := by
  induction l generalizing i with
  | nil => rfl
  | cons r rs ih => simp [assignRanks, List.range'_succ, ih]

theorem assignRanks_map_eraseRank (l : List ResultRecord) (i : Nat) :
    (assignRanks i l).map eraseRank = l.map eraseRank := by
  induction l generalizing i with
  | nil => rfl
  | cons r rs ih => simp [assignRanks, eraseRank, ih]

theorem assignRanks_map_participantId (l : List ResultRecord) (i : Nat) :
    (assignRanks i l).map ResultRecord.participantId
      = l.map ResultRecord.participantId := by
  induction l generalizing i with
  | nil => rfl
  | cons r rs ih => simp [assignRanks, ih]

theorem mem_assignRanks {l : List ResultRecord} {x : ResultRecord}
    (hx : x ∈ l) (i : Nat) :
    ∃ n, i < n ∧ n ≤ i + l.length ∧ { x with rank := n } ∈ assignRanks i l := by
  induction l generalizing i with
  | nil => cases hx
  | cons r rs ih =>
    rcases List.mem_cons.mp hx with h | h
    · subst h
      exact ⟨i + 1, Nat.lt_succ_self i, by simp, by simp [assignRanks]⟩
    · obtain ⟨n, h1, h2, h3⟩ := ih h (i + 1)
      refine ⟨n, by omega, by simp; omega, ?_⟩
      simp [assignRanks, h3]

theorem snapshot_participantId (p : Participant) :
    (snapshot p).participantId = p.socketId := by
  cases h : p.competitionData <;> simp [snapshot, h]

/-! ## Helper lemmas about the throttle -/

theorem throttleInv_init : throttleInv throttleInit :=
  ⟨rfl, List.Pairwise.nil⟩

theorem throttleInv_notify (now : Nat) (s : ThrottleState)
    (h : throttleInv s) : throttleInv (notifyDirty now s) := by
  obtain ⟨hhead, hpair⟩ := h
  cases hl : s.lastLeaderboardUpdate with
  | none =>
    have hnil : s.emissions = [] := by
      cases he : s.emissions with
      | nil => rfl
      | cons a as => rw [hl, he] at hhead; cases hhead
    simp only [notifyDirty, hl]
    exact ⟨rfl, by simp [hnil]⟩
  | some last =>
    by_cases hc : 1000 < now - last
    · simp only [notifyDirty, hl, if_pos hc]
      refine ⟨rfl, List.pairwise_cons.mpr ⟨?_, hpair⟩⟩
      intro b hb
      cases he : s.emissions with
      | nil => rw [he] at hb; cases hb
      | cons a as =>
        have ha : last = a := by
          rw [hl, he] at hhead
          exact Option.some.inj hhead
        rw [he] at hb
        rcases List.mem_cons.mp hb with rfl | hb2
        · omega
        · rw [he] at hpair
          have := (List.pairwise_cons.mp hpair).1 b hb2
          omega
    · simp only [notifyDirty, hl, if_neg hc]
      exact ⟨hhead, hpair⟩

theorem throttleInv_foldl (ts : List Nat) (s : ThrottleState)
    (h : throttleInv s) :
    throttleInv (ts.foldl (fun s t => notifyDirty t s) s) := by
  induction ts generalizing s with
  | nil => exact h
  | cons t ts ih => exact ih _ (throttleInv_notify t s h)

/-! ## Claim theorems -/

/-- Claim C1: on an in-progress session, the first of two end triggers
finalizes — the session moves to `completed`, exactly one set of
ResultRecords is persisted and broadcast — and the second trigger (a manual
end racing the fired auto-end timer, both of which invoke
`handleEndCompetition`) returns without mutating any state and emits
nothing. -/
theorem duplicate_end_single_finalization (s : SessionState) (cd : CompData)
    (t1 t2 : Nat) (ok2 : Bool)
    (hcd : s.compData = some cd) (hflag : cd.competitionInProgress = true) :
    (handleEndCompetition t1 true s).1.competition.status = Status.completed ∧
    (handleEndCompetition t1 true s).1.persisted
      = s.persisted ++ [finalResults cd.participants] ∧
    (handleEndCompetition t1 true s).2
      = [Emission.competitionEnded (finalResults cd.participants),
         Emission.leaderboardUpdate] ∧
    handleEndCompetition t2 ok2 (handleEndCompetition t1 true s).1
      = ((handleEndCompetition t1 true s).1, []) := by
  simp [handleEndCompetition, hcd, hflag]

/-- Witness for C1 at a concrete mid-round session: the first end completes
the session and the duplicate end is the identity with no output. -/
theorem duplicate_end_single_finalization_witness :
    (handleEndCompetition 60 true demoRunning).1.competition.status
      = Status.completed ∧
    handleEndCompetition 70 true (handleEndCompetition 60 true demoRunning).1
      = ((handleEndCompetition 60 true demoRunning).1, []) := by
  have h := duplicate_end_single_finalization demoRunning
    { competitionInProgress := true, participants := [pAlice, pBob] }
    60 70 true rfl rfl
  exact ⟨h.1, h.2.2.2⟩

/-- Claim C2 counterexample: `handleEndCompetition` contains no
`clearTimeout` — after starting a timed round (which arms the auto-end
timer) and then ending it manually, the timer callback is still pending, so
the end operation did not disarm/cancel the timer as the claim states. -/
theorem end_cancels_timer_counterexample :
    (handleStartCompetition 0 true demoPending).1.timerArmed = true ∧
    (handleEndCompetition 60 true
        (handleStartCompetition 0 true demoPending).1).1.timerArmed = true :=
  ⟨rfl, rfl⟩

/-- Claim C2 as amended: the end operation does not cancel the pending
auto-end timer; the timer callback still fires after a manual end, but the
cleared `competitionInProgress` flag makes that invocation return
immediately — no second finalization, no emission, no state change beyond
consuming the timeout. -/
theorem fired_timer_noop_after_end (s : SessionState) (cd : CompData)
    (now : Nat) (ok : Bool)
    (hcd : s.compData = some cd) (hflag : cd.competitionInProgress = false) :
    timerFire now ok s = ({ s with timerArmed := false }, []) := by
  cases ht : s.timerArmed with
  | false =>
    have hs : ({ s with timerArmed := false } : SessionState) = s := by
      cases s
      simp_all
    rw [hs]
    simp [timerFire, ht]
  | true =>
    simp [timerFire, handleEndCompetition, hcd, hflag, ht]

/-- Witness for the amended C2 at a concrete post-manual-end session with
its timer still armed: the fired timer is a no-op. -/
theorem fired_timer_noop_after_end_witness :
    timerFire 70 true demoStopped
      = ({ demoStopped with timerArmed := false }, []) :=
  fired_timer_noop_after_end demoStopped
    { competitionInProgress := false, participants := [pAlice, pBob] }
    70 true rfl rfl

/-- Claim C3 counterexample: after `handleStartCompetition` has returned —
so no start or end transition is in flight any more — the
`competitionInProgress` flag is still true, refuting "true exactly while a
single start or end transition is in flight, and false at all other
times". -/
theorem transition_flag_counterexample :
    ((handleStartCompetition 100 true demoPending).1.compData.map
      CompData.competitionInProgress) = some true :=
  rfl

/-- Claim C3 as amended: `competitionInProgress` is true exactly from a
successful start until the first end trigger — it marks the round as
running, not a transition window — and it still serializes the lifecycle:
while true any further start is a silent no-op, while false any end is a
silent no-op, a successful start sets it and the first end clears it, so at
most one start and one finalization succeed per cycle. -/
theorem flag_marks_running_round (s : SessionState) (cd : CompData)
    (now : Nat) (ok : Bool) (hcd : s.compData = some cd) :
    (cd.competitionInProgress = true →
      handleStartCompetition now ok s = (s, [])) ∧
    (cd.competitionInProgress = false →
      handleEndCompetition now ok s = (s, [])) ∧
    (cd.competitionInProgress = false →
      (handleStartCompetition now ok s).1.compData.map
        CompData.competitionInProgress = some true) ∧
    (cd.competitionInProgress = true →
      (handleEndCompetition now ok s).1.compData.map
        CompData.competitionInProgress = some false) := by
  refine ⟨fun h => ?_, fun h => ?_, fun h => ?_, fun h => ?_⟩ <;>
    cases ok <;>
      simp [handleStartCompetition, handleEndCompetition, hcd, h]

/-- Witness for the amended C3 at a concrete mid-round session: a duplicate
start is the identity and the end clears the flag. -/
theorem flag_marks_running_round_witness :
    handleStartCompetition 60 true demoRunning = (demoRunning, []) ∧
    (handleEndCompetition 60 true demoRunning).1.compData.map
      CompData.competitionInProgress = some false := by
  have h := flag_marks_running_round demoRunning
    { competitionInProgress := true, participants := [pAlice, pBob] }
    60 true rfl
  exact ⟨h.1 rfl, h.2.2.2 rfl⟩

/-- Claim C4 counterexample: when `competition.save()` fails, the handler's
catch block only logs — but since the `competitionEnded` broadcast comes
after the save inside the same try block, nothing is emitted at all, refuting
"the final results are still broadcast to subscribers". The in-memory
finalization did happen (status is `completed`). -/
theorem persistence_failure_counterexample :
    (handleEndCompetition 60 false demoRunning).2 = [] ∧
    (handleEndCompetition 60 false demoRunning).1.competition.status
      = Status.completed ∧
    (handleEndCompetition 60 false demoRunning).1.persisted = [] :=
  ⟨rfl, rfl, rfl⟩

/-- Claim C4 as amended: if the durable write fails during end, the failure
is only logged and the in-memory lifecycle is not rolled back — the session
still finalizes in memory (status `completed`, `completedAt` set, guard flag
cleared) — but the final-results broadcast and the leaderboard update are
skipped, because the write precedes the broadcast in the same try block. -/
theorem persistence_failure_in_memory_only (s : SessionState) (cd : CompData)
    (now : Nat)
    (hcd : s.compData = some cd) (hflag : cd.competitionInProgress = true) :
    (handleEndCompetition now false s).2 = [] ∧
    (handleEndCompetition now false s).1.competition.status
      = Status.completed ∧
    (handleEndCompetition now false s).1.competition.completedAt = some now ∧
    (handleEndCompetition now false s).1.compData
      = some { cd with competitionInProgress := false } ∧
    (handleEndCompetition now false s).1.persisted = s.persisted := by
  simp [handleEndCompetition, hcd, hflag]

/-- Witness for the amended C4 at a concrete mid-round session whose save
fails: no emission, yet the session is completed in memory. -/
theorem persistence_failure_in_memory_only_witness :
    (handleEndCompetition 60 false demoRunning).2 = [] ∧
    (handleEndCompetition 60 false demoRunning).1.competition.completedAt
      = some 60 := by
  have h := persistence_failure_in_memory_only demoRunning
    { competitionInProgress := true, participants := [pAlice, pBob] }
    60 rfl rfl
  exact ⟨h.1, h.2.2.1⟩

/-- Claim C5 counterexample: `handleStartCompetition` never checks
`competition.status` — on a session whose status is already `completed`
(guard flag clear, still present in `activeCompetitions`) a start call
succeeds, re-broadcasts `competitionStarted` and overwrites `startedAt`,
refuting "the start operation succeeds only when the session is in the
pending state". -/
theorem start_only_from_pending_counterexample :
    demoCompleted.competition.status = Status.completed ∧
    (handleStartCompetition 500 true demoCompleted).1.competition.status
      = Status.ongoing ∧
    (handleStartCompetition 500 true demoCompleted).2
      = [Emission.competitionStarted 500] ∧
    (handleStartCompetition 500 true demoCompleted).1.competition.startedAt
      = some 500 :=
  ⟨rfl, rfl, rfl, rfl⟩

/-- Claim C5 as amended: start succeeds whenever the session's in-memory
record exists and `competitionInProgress` is false — the `pending` status is
never consulted; a duplicate start while the flag is set is a silent no-op
(no state change, no error emission), so between a start and the next end
the session starts exactly once and `startedAt` is written exactly once. -/
theorem start_guarded_by_flag_only (s : SessionState) (cd : CompData)
    (now : Nat) (ok : Bool) (hcd : s.compData = some cd) :
    (cd.competitionInProgress = true →
      handleStartCompetition now ok s = (s, [])) ∧
    (cd.competitionInProgress = false →
      (handleStartCompetition now ok s).1.competition.startedAt = some now ∧
      (handleStartCompetition now ok s).1.competition.status
        = Status.ongoing) := by
  refine ⟨fun h => ?_, fun h => ?_⟩ <;>
    cases ok <;>
      simp [handleStartCompetition, hcd, h]

/-- Witness for the amended C5 at a concrete pending session: the start
succeeds and stamps `startedAt` with the server clock. -/
theorem start_guarded_by_flag_only_witness :
    (handleStartCompetition 0 true demoPending).1.competition.startedAt
      = some 0 ∧
    (handleStartCompetition 0 true demoPending).1.competition.status
      = Status.ongoing := by
  have h := start_guarded_by_flag_only demoPending
    { competitionInProgress := false, participants := [pAlice, pBob] }
    0 true rfl
  exact h.2 rfl

/-- Claim C8: a successful start replaces every participant's counters
object by the zero record — correctChars, totalChars, wpm, accuracy, errors,
backspaces, wordsTyped all 0 and completed false — and stamps
`testStartTime` with the server clock `now`.  The handler's payload is
`{ competitionId }` only, so no client-supplied time can reach the field. -/
theorem start_resets_participants (s : SessionState) (cd : CompData)
    (now : Nat) (ok : Bool)
    (hcd : s.compData = some cd) (hflag : cd.competitionInProgress = false) :
    ∃ cd1, (handleStartCompetition now ok s).1.compData = some cd1 ∧
      cd1.participants = cd.participants.map
        (fun p => { p with competitionData := some (resetData now) }) ∧
      ∀ p ∈ cd1.participants, p.competitionData = some
        { correctChars := 0, totalChars := 0, wpm := 0, accuracy := 0,
          errors := 0, backspaces := 0, testStartTime := now, wordsTyped := 0,
          completed := false, typingTime := 0 } := by
  refine ⟨{ competitionInProgress := true,
            participants := cd.participants.map
              (fun p => { p with competitionData := some (resetData now) }) },
          ?_, rfl, ?_⟩
  · cases ok <;> simp [handleStartCompetition, hcd, hflag]
  · intro p hp
    obtain ⟨q, hq, rfl⟩ := List.mem_map.mp hp
    rfl

/-- Witness for C8 at a concrete pending session started at server clock 0:
every participant carries the zero counters with `testStartTime = 0`. -/
theorem start_resets_participants_witness :
    ∃ cd1, (handleStartCompetition 0 true demoPending).1.compData = some cd1 ∧
      ∀ p ∈ cd1.participants, p.competitionData = some
        { correctChars := 0, totalChars := 0, wpm := 0, accuracy := 0,
          errors := 0, backspaces := 0, testStartTime := 0, wordsTyped := 0,
          completed := false, typingTime := 0 } := by
  obtain ⟨cd1, h1, _, h3⟩ := start_resets_participants demoPending
    { competitionInProgress := false, participants := [pAlice, pBob] }
    0 true rfl rfl
  exact ⟨cd1, h1, h3⟩

/-- Claim C6: the ranking step of `handleEndCompetition` sorts the records
by wpm descending (a stable sort, `(a, b) => b.wpm - a.wpm`, no secondary
key), returns a permutation of its input, keeps records with equal wpm in
their original input order, and then assigns the dense ranks 1..N in sorted
order, touching no field but `rank`. -/
theorem ranking_dense_stable (l : List ResultRecord) :
    (sortByWpmDesc l).Perm l ∧
    (sortByWpmDesc l).Pairwise wpmGe ∧
    (∀ w : Int, keyFilter w (sortByWpmDesc l) = keyFilter w l) ∧
    (assignRanks 0 (sortByWpmDesc l)).map ResultRecord.rank
      = List.range' 1 l.length ∧
    (assignRanks 0 (sortByWpmDesc l)).map eraseRank
      = (sortByWpmDesc l).map eraseRank := by
  refine ⟨sortByWpmDesc_perm l, sortByWpmDesc_sorted l,
          fun w => sortByWpmDesc_stable l w, ?_, assignRanks_map_eraseRank _ 0⟩
  rw [assignRanks_map_rank, (sortByWpmDesc_perm l).length_eq]

/-- Claim C7 (the Scoring Calculator itself lives in `server.js`, outside
the provided sources; `calcWpm`/`calcAccuracy` are modelled from the spec
and the README formula block): for positive totalChars and elapsed time,
`wpm = (correctChars/5)/(elapsedSeconds/60)` and
`accuracy = (correctChars/totalChars)*100`; accuracy is 0 when totalChars
is 0; and the documented example 400 correct of 410 chars in 60 s gives
wpm 80 and accuracy 4000/41 ≈ 97.56. -/
theorem scoring_formulas (c t e : Rat) (ht : 0 < t) (he : 0 < e) :
    calcWpm c e = c / 5 / (e / 60) ∧
    calcAccuracy c t = c / t * 100 ∧
    calcAccuracy c 0 = 0 ∧
    calcWpm 400 60 = 80 ∧
    calcAccuracy 400 410 = 4000 / 41 := by
  refine ⟨rfl, ?_, ?_, by norm_num [calcWpm], by norm_num [calcAccuracy]⟩
  · rw [calcAccuracy, if_pos ht]
  · rw [calcAccuracy, if_neg (lt_irrefl 0)]

/-- Witness for C7 at the documented example input. -/
theorem scoring_formulas_witness :
    calcWpm 400 60 = 80 ∧ calcAccuracy 400 410 = 4000 / 41 :=
  ⟨(scoring_formulas 400 410 60 (by norm_num) (by norm_num)).2.2.2.1,
   (scoring_formulas 400 410 60 (by norm_num) (by norm_num)).2.2.2.2⟩

/-- Claim C9 (the throttle gate of `server.js` is outside the provided
sources; `notifyDirty` is modelled from the README snippet and §4.6 of the
spec): under any sequence of progress notifications, the recorded
leaderboard emission instants are pairwise more than 1000 ms apart — no two
emissions fall within the same 1000 ms window — and a notification arriving
before the interval has elapsed since the last broadcast leaves the
Broadcaster state completely unchanged (dropped, not queued). -/
theorem leaderboard_throttle_bounded (ts : List Nat) (now last : Nat)
    (h1 : (runNotifications ts).lastLeaderboardUpdate = some last)
    (h2 : now ≤ last + 1000) :
    (runNotifications ts).emissions.Pairwise (fun a b => b + 1000 < a) ∧
    notifyDirty now (runNotifications ts) = runNotifications ts := by
  have hinv : throttleInv (runNotifications ts) :=
    throttleInv_foldl ts throttleInit throttleInv_init
  refine ⟨hinv.2, ?_⟩
  simp only [notifyDirty, h1]
  rw [if_neg (by omega)]

/-- Witness for C9: after one broadcast at instant 0, a notification at
instant 1000 (the interval not yet strictly elapsed) is a no-op. -/
theorem leaderboard_throttle_bounded_witness :
    (runNotifications [0]).lastLeaderboardUpdate = some 0 ∧
    notifyDirty 1000 (runNotifications [0]) = runNotifications [0] :=
  ⟨rfl, (leaderboard_throttle_bounded [0] 1000 0 rfl (by omega)).2⟩

/-- Claim C10: finalization produces exactly one ResultRecord per entry of
the participant map — the lengths match and the multiset of participant ids
is preserved — every record receives one of the dense ranks 1..N, and a
participant who never obtained a counters object (`competitionData` absent)
still appears, with every counter field 0, `completed` false, and a rank
between 1 and N. -/
theorem finalization_covers_all_participants (parts : List Participant) :
    (finalResults parts).length = parts.length ∧
    ((finalResults parts).map ResultRecord.participantId).Perm
      (parts.map Participant.socketId) ∧
    (finalResults parts).map ResultRecord.rank
      = List.range' 1 parts.length ∧
    (∀ p ∈ parts, p.competitionData = none →
      ∃ n, 1 ≤ n ∧ n ≤ parts.length ∧
        ({ participantName := p.name, participantId := p.socketId, wpm := 0,
           accuracy := 0, correctChars := 0, totalChars := 0,
           incorrectChars := 0, errors := 0, backspaces := 0, rank := n,
           typingTime := 0, wordsTyped := 0, completed := false } :
          ResultRecord) ∈ finalResults parts) := by
  have hlen : (sortByWpmDesc (parts.map snapshot)).length = parts.length := by
    rw [(sortByWpmDesc_perm (parts.map snapshot)).length_eq,
        List.length_map]
  refine ⟨?_, ?_, ?_, ?_⟩
  · rw [finalResults, assignRanks_length, hlen]
  · rw [finalResults, assignRanks_map_participantId]
    have hp := (sortByWpmDesc_perm (parts.map snapshot)).map
      ResultRecord.participantId
    refine hp.trans ?_
    rw [List.map_map]
    exact List.Perm.of_eq
      (List.map_congr_left (fun p _ => snapshot_participantId p))
  · rw [finalResults, assignRanks_map_rank, hlen]
  · intro p hp hd
    have hmem : snapshot p ∈ sortByWpmDesc (parts.map snapshot) :=
      (List.mem_insertionSort wpmGe).mpr (List.mem_map_of_mem snapshot hp)
    obtain ⟨n, h1, h2, h3⟩ := mem_assignRanks hmem 0
    refine ⟨n, h1, by omega, ?_⟩
    have hz : snapshot p =
        { participantName := p.name, participantId := p.socketId, wpm := 0,
          accuracy := 0, correctChars := 0, totalChars := 0,
          incorrectChars := 0, errors := 0, backspaces := 0, rank := 0,
          typingTime := 0, wordsTyped := 0, completed := false } := by
      rw [snapshot, hd]
    rw [finalResults]
    rw [hz] at h3
    exact h3

/-- Witness for C10 at a concrete two-participant session in which alice
never obtained a counters object: she still receives an all-zero record with
a rank in 1..2. -/
theorem finalization_covers_all_participants_witness :
    (finalResults [pAlice, pBob]).length = 2 ∧
    (∃ n, 1 ≤ n ∧ n ≤ 2 ∧
      ({ participantName := "alice", participantId := "s1", wpm := 0,
         accuracy := 0, correctChars := 0, totalChars := 0,
         incorrectChars := 0, errors := 0, backspaces := 0, rank := n,
         typingTime := 0, wordsTyped := 0, completed := false } :
        ResultRecord) ∈ finalResults [pAlice, pBob]) := by
  have h := finalization_covers_all_participants [pAlice, pBob]
  refine ⟨h.1, ?_⟩
  have h4 := h.2.2.2 pAlice (by simp) rfl
  simpa [pAlice] using h4

end TypingComp
